import Mathlib

/-!
Shallow embedding of the BudgetBuddy CLI (src/budget.js) for checking the
natural-language specification against the code.

Modelling conventions:
* JavaScript numbers are modelled by `JSNum`: NaN, the two infinities, and
  finite values as exact rationals.  Rounding of IEEE doubles is not modelled;
  none of the claims under consideration depends on rounding.
* The persisted document (data.json) is `Document`: the transaction list plus
  the goals object.  A JavaScript object with string keys is modelled as an
  insertion-ordered association list `List (String × JSNum)`; property update
  keeps the position of an existing key and appends a fresh key, exactly as
  JavaScript object semantics prescribes.
* `for (const cat in goals)` enumerates own enumerable string keys in the
  ECMAScript order: keys that are canonical array indices first, in ascending
  numeric order, then the remaining keys in insertion order.  This is embedded
  by `jsEntriesForIn`.
* `Date.now()` and the creation date are external inputs: each command carries
  the clock value and the date string observed when it ran (`CmdCtx`).
* Console output and process exit are abstracted into `Outcome`; the message
  strings of the relevant error paths are kept verbatim.
-/

/-- Model of a JavaScript number: NaN, positive and negative infinity, or a
finite value represented exactly as a rational. -/
inductive JSNum
  | nan
  | inf
  | ninf
  | fin (q : ℚ)
deriving DecidableEq

namespace JSNum

/-- JavaScript `isNaN` on an already-converted number. -/
def isNaN : JSNum → Bool
  | nan => true
  | _ => false

/-- Whether the number is finite (neither NaN nor an infinity). -/
def isFinite : JSNum → Bool
  | fin _ => true
  | _ => false

end JSNum

/-- JavaScript addition on numbers: NaN is absorbing, opposite infinities give
NaN, an infinity dominates finite values, finite values add exactly. -/
def jsAdd : JSNum → JSNum → JSNum
  | JSNum.nan, _ => JSNum.nan
  | _, JSNum.nan => JSNum.nan
  | JSNum.inf, JSNum.ninf => JSNum.nan
  | JSNum.ninf, JSNum.inf => JSNum.nan
  | JSNum.inf, _ => JSNum.inf
  | _, JSNum.inf => JSNum.inf
  | JSNum.ninf, _ => JSNum.ninf
  | _, JSNum.ninf => JSNum.ninf
  | JSNum.fin a, JSNum.fin b => JSNum.fin (a + b)

/-- JavaScript unary negation on numbers. -/
def jsNeg : JSNum → JSNum
  | JSNum.nan => JSNum.nan
  | JSNum.inf => JSNum.ninf
  | JSNum.ninf => JSNum.inf
  | JSNum.fin q => JSNum.fin (-q)

/-- JavaScript subtraction: `a - b` behaves as `a + (-b)`. -/
def jsSub (a b : JSNum) : JSNum := jsAdd a (jsNeg b)

/-- JavaScript strict `<` on numbers: false whenever either side is NaN. -/
def jsLtB : JSNum → JSNum → Bool
  | JSNum.nan, _ => false
  | _, JSNum.nan => false
  | JSNum.ninf, JSNum.ninf => false
  | JSNum.ninf, _ => true
  | _, JSNum.ninf => false
  | JSNum.inf, _ => false
  | JSNum.fin _, JSNum.inf => true
  | JSNum.fin a, JSNum.fin b => decide (a < b)

/-- JavaScript `<=` on numbers: false whenever either side is NaN. -/
def jsLeB : JSNum → JSNum → Bool
  | JSNum.nan, _ => false
  | _, JSNum.nan => false
  | JSNum.ninf, _ => true
  | _, JSNum.ninf => false
  | _, JSNum.inf => true
  | JSNum.inf, _ => false
  | JSNum.fin a, JSNum.fin b => decide (a ≤ b)

/-- JavaScript strict `>` on numbers. -/
def jsGtB (a b : JSNum) : Bool := jsLtB b a

/-- The JavaScript expression `x || 0` applied to a property read that may
have found nothing (`undefined`): `undefined`, NaN and `0` are falsy and give
`0`; any other number is returned unchanged. -/
def jsOr0 : Option JSNum → JSNum
  | none => JSNum.fin 0
  | some JSNum.nan => JSNum.fin 0
  | some v => v

/-- Numeric value of a list of decimal digit characters, most significant
first, as in a JavaScript decimal literal. -/
def natOfDigits (ds : List Char) : ℕ :=
  ds.foldl (fun a c => 10 * a + (c.toNat - 48)) 0

/-- Optional sign at the front of a numeric literal: returns whether the
value is negated, and the remaining characters. -/
def splitSign : List Char → Bool × List Char
  | '-' :: cs => (true, cs)
  | '+' :: cs => (false, cs)
  | cs => (false, cs)

/-- Optional exponent part of a decimal literal (`e` or `E`, an optional
sign, then digits); yields the exponent value, `0` when absent or malformed
(in which case JavaScript parseFloat stops before it). -/
def parseExponent : List Char → ℤ
  | c :: cs =>
    if c = 'e' ∨ c = 'E' then
      let (neg, cs2) := splitSign cs
      let ds := cs2.takeWhile Char.isDigit
      if ds.isEmpty then 0
      else if neg then -(natOfDigits ds : ℤ) else (natOfDigits ds : ℤ)
    else 0
  | [] => 0

/-- Unsigned part of JavaScript parseFloat: the literal `Infinity`, or a
decimal significand (digits, optional point, digits) with an optional
exponent; `none` when no numeric prefix exists (parseFloat yields NaN). -/
def parseUnsigned (cs : List Char) : Option JSNum :=
  if "Infinity".toList.isPrefixOf cs then some JSNum.inf
  else
    let ip := cs.takeWhile Char.isDigit
    let rest := cs.dropWhile Char.isDigit
    let (fp, rest2) :=
      match rest with
      | '.' :: cs2 => (cs2.takeWhile Char.isDigit, cs2.dropWhile Char.isDigit)
      | _ => (([] : List Char), rest)
    if ip.isEmpty ∧ fp.isEmpty then none
    else
      let mant : ℚ := (natOfDigits ip : ℚ) + (natOfDigits fp : ℚ) / ((10 : ℚ) ^ fp.length)
      some (JSNum.fin (mant * (10 : ℚ) ^ parseExponent rest2))

/-- JavaScript `parseFloat` on a string: skip leading whitespace, read an
optional sign, then the longest numeric prefix (`Infinity` or a decimal
literal); NaN when there is none.  Rounding to binary floating point is not
modelled: the parsed value is kept exact. -/
def parseFloat (s : String) : JSNum :=
  let cs := s.toList.dropWhile Char.isWhitespace
  let (neg, cs2) := splitSign cs
  match parseUnsigned cs2 with
  | none => JSNum.nan
  | some v => if neg then jsNeg v else v

/-- ASCII lowercasing, the effect of `toLowerCase()` on the inputs of
interest. -/
def jsToLower (s : String) : String :=
  String.mk (s.toList.map Char.toLower)

/-- A transaction record as stored in data.json.  The id is the `Date.now()`
value at creation (a nonnegative integer); the date is the ISO day string. -/
structure Transaction where
  id : ℕ
  type : String
  amount : JSNum
  category : String
  description : String
  date : String
deriving DecidableEq

/-- Read of property `k` of a JavaScript object modelled as an
insertion-ordered association list. -/
def objGet : List (String × JSNum) → String → Option JSNum
  | [], _ => none
  | p :: rest, k => if p.1 = k then some p.2 else objGet rest k

/-- Write of property `k`: an existing key keeps its position and gets the
new value; a fresh key is appended, as JavaScript object assignment does. -/
def objSet : List (String × JSNum) → String → JSNum → List (String × JSNum)
  | [], k, v => [(k, v)]
  | p :: rest, k, v => if p.1 = k then (k, v) :: rest else p :: objSet rest k v

/-- Whether a string is a canonical array index in the ECMAScript sense: the
canonical decimal form (all digits, no leading zero) of an integer below
2^32 - 1.  Such keys are enumerated first, in ascending numeric order, by
`for ... in`. -/
def isArrayIndexKey (s : String) : Bool :=
  let cs := s.toList
  !cs.isEmpty && cs.all Char.isDigit && decide (natOfDigits cs < 4294967295) &&
    (Nat.repr (natOfDigits cs) == s)

/-- Numeric value used to order array-index keys. -/
def keyNum (s : String) : ℕ := natOfDigits s.toList

/-- Insertion of an entry into a list of entries sorted by ascending numeric
key value. -/
def insertByKeyNum (p : String × JSNum) : List (String × JSNum) → List (String × JSNum)
  | [] => [p]
  | q :: rest =>
    if keyNum p.1 ≤ keyNum q.1 then p :: q :: rest else q :: insertByKeyNum p rest

/-- Insertion sort of entries by ascending numeric key value. -/
def sortByKeyNum : List (String × JSNum) → List (String × JSNum)
  | [] => []
  | p :: rest => insertByKeyNum p (sortByKeyNum rest)

/-- The entries of an object in `for ... in` enumeration order: entries whose
key is a canonical array index first, in ascending numeric order, then the
remaining entries in insertion order. -/
def jsEntriesForIn (g : List (String × JSNum)) : List (String × JSNum) :=
  sortByKeyNum (g.filter fun p => isArrayIndexKey p.1) ++
    g.filter fun p => !isArrayIndexKey p.1

/-- The persisted document: the transaction list and the goals object. -/
structure Document where
  transactions : List Transaction
  goals : List (String × JSNum)
deriving DecidableEq

/-- The document `loadData` returns when no data file exists yet. -/
def emptyDoc : Document := ⟨[], []⟩

/-- Loop body of `calculateBalance`: `if (t.type === "income") income +=
t.amount; else expense += t.amount`, on the pair (income, expense). -/
def balStep (p : JSNum × JSNum) (t : Transaction) : JSNum × JSNum :=
  if t.type == "income" then (jsAdd p.1 t.amount, p.2) else (p.1, jsAdd p.2 t.amount)

/-- Embedding of `calculateBalance`: one pass accumulating an income sum and
an expense sum (every transaction whose type is not exactly "income" feeds
the expense sum), then their difference. -/
def calculateBalance (ts : List Transaction) : JSNum :=
  let p := ts.foldl balStep (JSNum.fin 0, JSNum.fin 0)
  jsSub p.1 p.2

/-- One step of the `spentByCategory` accumulation in `checkAlerts`:
`spentByCategory[t.category] = (spentByCategory[t.category] || 0) + t.amount`
for expense transactions. -/
def accumSpend (m : List (String × JSNum)) (t : Transaction) : List (String × JSNum) :=
  if t.type == "expense" then
    objSet m t.category (jsAdd (jsOr0 (objGet m t.category)) t.amount)
  else m

/-- The `spentByCategory` object built by `checkAlerts`. -/
def spentByCategory (ts : List Transaction) : List (String × JSNum) :=
  ts.foldl accumSpend []

/-- Loop body of the `totalExpense` accumulation in `checkAlerts`. -/
def expStep (acc : JSNum) (t : Transaction) : JSNum :=
  if t.type == "expense" then jsAdd acc t.amount else acc

/-- The `totalExpense` accumulator of `checkAlerts`. -/
def totalExpense (ts : List Transaction) : JSNum :=
  ts.foldl expStep (JSNum.fin 0)

/-- An alert emitted by `checkAlerts`.  The source pushes a template string;
the record keeps the three interpolated values (goal key, spent, goal),
which is all the template carries beyond fixed text. -/
structure Alert where
  cat : String
  spent : JSNum
  goal : JSNum
deriving DecidableEq

/-- Embedding of `checkAlerts`: build the per-category spend object and the
total expense, then walk the goal keys in `for ... in` order; the key
"total" is compared against the total expense, any other key against that
category spend defaulted to 0 via `|| 0`; an alert is pushed only on strict
excess. -/
def checkAlerts (ts : List Transaction) (goals : List (String × JSNum)) : List Alert :=
  let m := spentByCategory ts
  let total := totalExpense ts
  (jsEntriesForIn goals).filterMap fun p =>
    if p.1 == "total" then
      if jsGtB total p.2 then some ⟨p.1, total, p.2⟩ else none
    else
      let spent := jsOr0 (objGet m p.1)
      if jsGtB spent p.2 then some ⟨p.1, spent, p.2⟩ else none

/-- The three document-mutating CLI commands, with their raw string
arguments as received from the command line. -/
inductive Cmd
  | add (ty amountStr category description : String)
  | del (idStr : String)
  | setgoal (category amountStr : String)
deriving DecidableEq

/-- A command invocation together with its external observations: the
`Date.now()` value and the ISO day string at the time it ran. -/
structure CmdCtx where
  cmd : Cmd
  now : ℕ
  today : String
deriving DecidableEq

/-- Abstraction of the observable result of one command: success, an error
message followed by `process.exit(1)`, an error message followed by a plain
return, or the not-found report of `delete`. -/
inductive Outcome
  | ok
  | exitFailure (msg : String)
  | errorReturn (msg : String)
  | notFound (msg : String)
deriving DecidableEq

/-- The validation test applied to a parsed amount in both `add` and
`setgoal`: `isNaN(amount) || amount <= 0`. -/
def invalidAmount (v : JSNum) : Bool := v.isNaN || jsLeB v (JSNum.fin 0)

/-- One command against the in-memory document, returning the document that
gets persisted (unchanged when the command does not save) and the outcome.
This is the load-mutate-save cycle of the `add`, `delete` and `setgoal`
actions of the CLI. -/
def step (d : Document) (c : CmdCtx) : Document × Outcome :=
  match c.cmd with
  | Cmd.add ty s cat desc =>
    let ty2 := jsToLower ty
    if ty2 != "income" && ty2 != "expense" then
      (d, Outcome.exitFailure "Type must be \"income\" or \"expense\"")
    else
      let a := parseFloat s
      if invalidAmount a then (d, Outcome.exitFailure "Amount must be a positive number")
      else
        ({ d with
            transactions := d.transactions ++ [⟨c.now, ty2, a, cat, desc, c.today⟩] },
          Outcome.ok)
  | Cmd.del idStr =>
    let ts2 := d.transactions.filter fun t => toString t.id != idStr
    if ts2.length = d.transactions.length then
      (d, Outcome.notFound "No transaction found with that ID")
    else ({ d with transactions := ts2 }, Outcome.ok)
  | Cmd.setgoal cat s =>
    let a := parseFloat s
    if invalidAmount a then (d, Outcome.errorReturn "Amount must be a positive number")
    else ({ d with goals := objSet d.goals cat a }, Outcome.ok)

/-- Run of a sequence of command invocations, threading the persisted
document. -/
def run (d : Document) : List CmdCtx → Document
  | [] => d
  | c :: cs => run (step d c).1 cs

/-! ## Specification-side derived quantities

The following definitions follow the wording of the specification (sums of
amounts selected by type and category); the theorems below relate them to
the accumulator loops of the code. -/

/-- Left-fold sum of a list of JavaScript numbers starting from 0. -/
def sumAmounts (l : List JSNum) : JSNum := l.foldl jsAdd (JSNum.fin 0)

/-- Amounts of the transactions whose type is exactly "income". -/
def incomeAmounts (ts : List Transaction) : List JSNum :=
  (ts.filter fun t => t.type == "income").map Transaction.amount

/-- Amounts of the transactions whose type is exactly "expense". -/
def expenseAmounts (ts : List Transaction) : List JSNum :=
  (ts.filter fun t => t.type == "expense").map Transaction.amount

/-- Amounts of the transactions whose type is anything other than
"income". -/
def nonIncomeAmounts (ts : List Transaction) : List JSNum :=
  (ts.filter fun t => t.type != "income").map Transaction.amount

/-- Amounts of the expense transactions in one category. -/
def categoryExpenseAmounts (ts : List Transaction) (cat : String) : List JSNum :=
  (ts.filter fun t => t.type == "expense" && t.category == cat).map Transaction.amount

/-- The spend the specification compares against a goal key: the total
expense for the key "total", otherwise the summed expense amounts of that
category (0 when the category has no expenses). -/
def claimSpend (ts : List Transaction) (cat : String) : JSNum :=
  if cat = "total" then totalExpense ts else sumAmounts (categoryExpenseAmounts ts cat)

/-- Well-formedness of one stored transaction, as stated by the data-model
invariant: positive amount and a type that is "income" or "expense". -/
def wfTxn (t : Transaction) : Prop :=
  jsGtB t.amount (JSNum.fin 0) = true ∧ (t.type = "income" ∨ t.type = "expense")

/-- Well-formedness of the document: every transaction is well formed and
the stored ids are strictly increasing along the list (hence unique). -/
def wfDoc (d : Document) : Prop :=
  (∀ t ∈ d.transactions, wfTxn t) ∧
    (d.transactions.map Transaction.id).Pairwise (· < ·)

instance : DecidablePred wfTxn := fun t => by unfold wfTxn; infer_instance

instance (d : Document) : Decidable (wfDoc d) := by unfold wfDoc; infer_instance

/-! ## Basic lemmas about the number model -/

theorem jsGtB_irrefl (v : JSNum) : jsGtB v v = false := by
  cases v <;> simp [jsGtB, jsLtB]

theorem jsGtB_zero_of_valid {v : JSNum} (h : invalidAmount v = false) :
    jsGtB v (JSNum.fin 0) = true := by
  cases v with
  | nan => simp [invalidAmount, JSNum.isNaN] at h
  | inf => rfl
  | ninf => simp [invalidAmount, JSNum.isNaN, jsLeB] at h
  | fin q =>
    simp [invalidAmount, JSNum.isNaN, jsLeB] at h
    simpa [jsGtB, jsLtB] using h

theorem isFinite_jsAdd {a b : JSNum} (ha : a.isFinite = true) (hb : b.isFinite = true) :
    (jsAdd a b).isFinite = true := by
  cases a <;> cases b <;> simp_all [JSNum.isFinite, jsAdd]

theorem jsOr0_isFinite {o : Option JSNum} (h : ∀ v, o = some v → v.isFinite = true) :
    (jsOr0 o).isFinite = true := by
  match o with
  | none => rfl
  | some JSNum.nan => exact absurd (h JSNum.nan rfl) (by simp [JSNum.isFinite])
  | some JSNum.inf => exact h JSNum.inf rfl
  | some JSNum.ninf => exact h JSNum.ninf rfl
  | some (JSNum.fin q) => rfl

theorem jsOr0_some_of_finite {v : JSNum} (h : v.isFinite = true) :
    jsOr0 (some v) = v := by
  cases v <;> simp_all [JSNum.isFinite, jsOr0]

/-! ## Lemmas about the object model -/

theorem objGet_objSet_self (g : List (String × JSNum)) (k : String) (v : JSNum) :
    objGet (objSet g k v) k = some v := by
  induction g with
  | nil => simp [objSet, objGet]
  | cons p rest ih =>
    by_cases h : p.1 = k
    · simp [objSet, h, objGet]
    · simp [objSet, h, objGet, ih]

theorem objGet_objSet_ne (g : List (String × JSNum)) {k k' : String} (v : JSNum)
    (h : k' ≠ k) : objGet (objSet g k v) k' = objGet g k' := by
  have h' : ¬ k = k' := fun hh => h hh.symm
  induction g with
  | nil => simp [objSet, objGet, h']
  | cons p rest ih =>
    simp only [objSet]
    by_cases hp : p.1 = k
    · rw [if_pos hp]
      simp only [objGet]
      rw [if_neg h', if_neg (show ¬ p.1 = k' by rw [hp]; exact h')]
    · rw [if_neg hp]
      simp only [objGet]
      by_cases hp' : p.1 = k'
      · rw [if_pos hp', if_pos hp']
      · rw [if_neg hp', if_neg hp', ih]

theorem mem_objSet {g : List (String × JSNum)} {k : String} {v : JSNum}
    {p : String × JSNum} (h : p ∈ objSet g k v) : p = (k, v) ∨ p ∈ g := by
  induction g with
  | nil => simpa [objSet] using h
  | cons q rest ih =>
    by_cases hq : q.1 = k
    · simp only [objSet, if_pos hq, List.mem_cons] at h
      rcases h with h | h
      · exact Or.inl h
      · exact Or.inr (List.mem_cons_of_mem _ h)
    · simp only [objSet, if_neg hq, List.mem_cons] at h
      rcases h with h | h
      · exact Or.inr (h ▸ List.mem_cons_self _ _)
      · rcases ih h with h' | h'
        · exact Or.inl h'
        · exact Or.inr (List.mem_cons_of_mem _ h')

/-! ## Lemmas about the enumeration order -/

theorem mem_insertByKeyNum {x p : String × JSNum} {l : List (String × JSNum)} :
    x ∈ insertByKeyNum p l ↔ x = p ∨ x ∈ l := by
  induction l with
  | nil => simp [insertByKeyNum]
  | cons q rest ih =>
    by_cases h : keyNum p.1 ≤ keyNum q.1
    · simp [insertByKeyNum, h]
    · simp only [insertByKeyNum, if_neg h, List.mem_cons, ih]
      tauto

theorem mem_sortByKeyNum {x : String × JSNum} {l : List (String × JSNum)} :
    x ∈ sortByKeyNum l ↔ x ∈ l := by
  induction l with
  | nil => simp [sortByKeyNum]
  | cons p rest ih => simp [sortByKeyNum, mem_insertByKeyNum, ih]

theorem mem_jsEntriesForIn {x : String × JSNum} {g : List (String × JSNum)} :
    x ∈ jsEntriesForIn g ↔ x ∈ g := by
  simp only [jsEntriesForIn, List.mem_append, mem_sortByKeyNum, List.mem_filter]
  constructor
  · rintro (⟨h, _⟩ | ⟨h, _⟩) <;> exact h
  · intro h
    by_cases hi : isArrayIndexKey x.1
    · exact Or.inl ⟨h, hi⟩
    · exact Or.inr ⟨h, by simpa using hi⟩

theorem jsEntriesForIn_eq_self {g : List (String × JSNum)}
    (h : ∀ p ∈ g, isArrayIndexKey p.1 = false) : jsEntriesForIn g = g := by
  have h1 : g.filter (fun p => isArrayIndexKey p.1) = [] :=
    List.filter_eq_nil_iff.mpr (by intro p hp; simp [h p hp])
  have h2 : g.filter (fun p => !isArrayIndexKey p.1) = g :=
    List.filter_eq_self.mpr (by intro p hp; simp [h p hp])
  simp [jsEntriesForIn, h1, h2, sortByKeyNum]

/-! ## The accumulator loops compute the specified sums -/

theorem foldl_balStep (ts : List Transaction) (a b : JSNum) :
    ts.foldl balStep (a, b) =
      ((incomeAmounts ts).foldl jsAdd a, (nonIncomeAmounts ts).foldl jsAdd b) := by
  induction ts generalizing a b with
  | nil => simp [incomeAmounts, nonIncomeAmounts]
  | cons t rest ih =>
    by_cases ht : t.type = "income"
    · simp [balStep, ht, incomeAmounts, nonIncomeAmounts, List.filter_cons, ih]
    · simp [balStep, ht, incomeAmounts, nonIncomeAmounts, List.filter_cons, ih]

theorem foldl_expStep (ts : List Transaction) (z : JSNum) :
    ts.foldl expStep z = (expenseAmounts ts).foldl jsAdd z := by
  induction ts generalizing z with
  | nil => simp [expenseAmounts]
  | cons t rest ih =>
    by_cases ht : t.type = "expense"
    · simp [expStep, ht, expenseAmounts, List.filter_cons, ih]
    · simp [expStep, ht, expenseAmounts, List.filter_cons, ih]

theorem calculateBalance_eq (ts : List Transaction) :
    calculateBalance ts =
      jsSub (sumAmounts (incomeAmounts ts)) (sumAmounts (nonIncomeAmounts ts)) := by
  simp [calculateBalance, foldl_balStep, sumAmounts]

theorem totalExpense_eq (ts : List Transaction) :
    totalExpense ts = sumAmounts (expenseAmounts ts) := by
  simp [totalExpense, foldl_expStep, sumAmounts]

/-- Generalized invariant of the `spentByCategory` loop: reading one key
after the loop, through `|| 0`, yields the fold of the matching expense
amounts over the value the key had before the loop (through `|| 0`),
provided all involved values are finite.  Finiteness matters because `|| 0`
collapses NaN to 0, which would desynchronize the loop from a plain sum. -/
theorem foldl_accumSpend (ts : List Transaction) (m : List (String × JSNum)) (cat : String)
    (hts : ∀ t ∈ ts, t.amount.isFinite = true)
    (hm : ∀ v, objGet m cat = some v → v.isFinite = true) :
    jsOr0 (objGet (ts.foldl accumSpend m) cat) =
      (categoryExpenseAmounts ts cat).foldl jsAdd (jsOr0 (objGet m cat)) := by
  induction ts generalizing m with
  | nil => simp [categoryExpenseAmounts]
  | cons t rest ih =>
    have htfin : t.amount.isFinite = true := hts t (List.mem_cons_self _ _)
    have hrest : ∀ t' ∈ rest, t'.amount.isFinite = true := fun t' h' =>
      hts t' (List.mem_cons_of_mem _ h')
    by_cases hty : t.type = "expense"
    · by_cases hc : t.category = cat
      · have hz : (jsOr0 (objGet m cat)).isFinite = true := jsOr0_isFinite hm
        have hw : (jsAdd (jsOr0 (objGet m cat)) t.amount).isFinite = true :=
          isFinite_jsAdd hz htfin
        have hstep : accumSpend m t =
            objSet m cat (jsAdd (jsOr0 (objGet m cat)) t.amount) := by
          simp [accumSpend, hty, hc]
        have hm' : ∀ v,
            objGet (objSet m cat (jsAdd (jsOr0 (objGet m cat)) t.amount)) cat = some v →
              v.isFinite = true := by
          intro v hv
          rw [objGet_objSet_self] at hv
          injection hv with hv'
          exact hv' ▸ hw
        have hcons : categoryExpenseAmounts (t :: rest) cat =
            t.amount :: categoryExpenseAmounts rest cat := by
          simp [categoryExpenseAmounts, List.filter_cons, hty, hc]
        rw [List.foldl_cons, hstep, ih _ hrest hm', objGet_objSet_self,
          jsOr0_some_of_finite hw, hcons, List.foldl_cons]
      · have hstep : accumSpend m t =
            objSet m t.category (jsAdd (jsOr0 (objGet m t.category)) t.amount) := by
          simp [accumSpend, hty]
        have hget : objGet (accumSpend m t) cat = objGet m cat := by
          rw [hstep]
          exact objGet_objSet_ne _ _ (fun hh => hc hh.symm)
        have hcons : categoryExpenseAmounts (t :: rest) cat =
            categoryExpenseAmounts rest cat := by
          simp [categoryExpenseAmounts, List.filter_cons, hty, hc]
        rw [List.foldl_cons, ih _ hrest (by intro v hv; exact hm v (hget ▸ hv)), hget, hcons]
    · have hstep : accumSpend m t = m := by simp [accumSpend, hty]
      have hcons : categoryExpenseAmounts (t :: rest) cat =
          categoryExpenseAmounts rest cat := by
        simp [categoryExpenseAmounts, List.filter_cons, hty]
      rw [List.foldl_cons, hstep, ih _ hrest hm, hcons]

/-- The per-category spend object of `checkAlerts`, read through `|| 0`,
computes the sum of the expense amounts of that category, for finite
amounts; an absent category reads as 0. -/
theorem spentByCategory_spec (ts : List Transaction) (cat : String)
    (hts : ∀ t ∈ ts, t.amount.isFinite = true) :
    jsOr0 (objGet (spentByCategory ts) cat) = sumAmounts (categoryExpenseAmounts ts cat) := by
  have h := foldl_accumSpend ts [] cat hts (by intro v hv; simp [objGet] at hv)
  simpa [spentByCategory, sumAmounts, objGet, jsOr0] using h

/-- For finite amounts, `checkAlerts` is the walk of the goal entries in
enumeration order that emits, for each goal whose specified spend strictly
exceeds its value, the alert carrying the key, that spend and the goal. -/
theorem checkAlerts_eq (ts : List Transaction) (goals : List (String × JSNum))
    (hts : ∀ t ∈ ts, t.amount.isFinite = true) :
    checkAlerts ts goals =
      (jsEntriesForIn goals).filterMap fun p =>
        if jsGtB (claimSpend ts p.1) p.2 then
          some ⟨p.1, claimSpend ts p.1, p.2⟩ else none := by
  simp only [checkAlerts]
  congr 1
  funext p
  by_cases hp : p.1 = "total"
  · simp [hp, claimSpend, totalExpense_eq]
  · simp [hp, claimSpend, spentByCategory_spec ts p.1 hts]

/-- Emitting through a boolean guard is filtering then mapping. -/
theorem filterMap_guard {α β : Type} (l : List α) (c : α → Bool) (g : α → β) :
    (l.filterMap fun x => if c x then some (g x) else none) = (l.filter c).map g := by
  induction l with
  | nil => rfl
  | cons x rest ih =>
    by_cases h : c x
    · simp [List.filterMap_cons, List.filter_cons, h, ih]
    · simp [List.filterMap_cons, List.filter_cons, h, ih]

/-- A list whose filtered version keeps its length satisfies the predicate
everywhere. -/
theorem all_of_length_filter_eq {α : Type} (p : α → Bool) (l : List α)
    (h : (l.filter p).length = l.length) : ∀ a ∈ l, p a = true := by
  induction l with
  | nil => simp
  | cons x rest ih =>
    by_cases hx : p x = true
    · intro a ha
      rcases List.mem_cons.mp ha with rfl | ha'
      · exact hx
      · exact ih (by simpa [List.filter_cons, hx] using h) a ha'
    · exfalso
      have hle := List.length_filter_le p rest
      simp [List.filter_cons, hx] at h
      omega

/-- C1: for every transaction list (with finite stored amounts, as the
data-model invariant guarantees) and every goals entry, `checkAlerts` emits
the alert for that goal key if and only if the corresponding spend strictly
exceeds the goal value, where the spend is the total expense for the key
"total" and the summed expense amounts of the category otherwise (0 when the
category has no expenses); the emitted alert carries the key, the spend and
the goal value, and no alert is emitted when the spend equals the goal. -/
theorem checkAlerts_goal_alert_iff (ts : List Transaction)
    (goals : List (String × JSNum)) (cat : String) (gv : JSNum)
    (hts : ∀ t ∈ ts, t.amount.isFinite = true)
    (hmem : (cat, gv) ∈ goals) :
    ((⟨cat, claimSpend ts cat, gv⟩ : Alert) ∈ checkAlerts ts goals ↔
      jsGtB (claimSpend ts cat) gv = true)
    ∧ (claimSpend ts cat = gv →
        (⟨cat, claimSpend ts cat, gv⟩ : Alert) ∉ checkAlerts ts goals) := by
  have hiff : (⟨cat, claimSpend ts cat, gv⟩ : Alert) ∈ checkAlerts ts goals ↔
      jsGtB (claimSpend ts cat) gv = true := by
    rw [checkAlerts_eq ts goals hts]
    constructor
    · intro h
      rcases List.mem_filterMap.mp h with ⟨p, _hp, hfp⟩
      split at hfp
      · rename_i hg
        have h2 := Option.some.inj hfp
        simp only [Alert.mk.injEq] at h2
        rcases h2 with ⟨h21, _h22, h23⟩
        rw [h21, h23] at hg
        exact hg
      · exact absurd hfp (by simp)
    · intro hgt
      exact List.mem_filterMap.mpr ⟨(cat, gv), mem_jsEntriesForIn.mpr hmem, by simp [hgt]⟩
  refine ⟨hiff, fun he hm => ?_⟩
  have hgt := hiff.mp hm
  rw [he, jsGtB_irrefl] at hgt
  exact Bool.false_ne_true hgt

/-- C1 witness: a single groceries expense of 750 against a groceries goal
of 500 produces the groceries alert, by the iff at a concrete input. -/
theorem checkAlerts_goal_alert_iff_witness :
    ((⟨"groceries",
        claimSpend [⟨1, "expense", JSNum.fin 750, "groceries", "", "2026-01-01"⟩] "groceries",
        JSNum.fin 500⟩ : Alert) ∈
      checkAlerts [⟨1, "expense", JSNum.fin 750, "groceries", "", "2026-01-01"⟩]
        [("groceries", JSNum.fin 500)] ↔
      jsGtB (claimSpend [⟨1, "expense", JSNum.fin 750, "groceries", "", "2026-01-01"⟩]
        "groceries") (JSNum.fin 500) = true)
    ∧ (claimSpend [⟨1, "expense", JSNum.fin 750, "groceries", "", "2026-01-01"⟩] "groceries" =
        JSNum.fin 500 →
        (⟨"groceries",
          claimSpend [⟨1, "expense", JSNum.fin 750, "groceries", "", "2026-01-01"⟩] "groceries",
          JSNum.fin 500⟩ : Alert) ∉
          checkAlerts [⟨1, "expense", JSNum.fin 750, "groceries", "", "2026-01-01"⟩]
            [("groceries", JSNum.fin 500)]) :=
  checkAlerts_goal_alert_iff
    [⟨1, "expense", JSNum.fin 750, "groceries", "", "2026-01-01"⟩]
    [("groceries", JSNum.fin 500)] "groceries" (JSNum.fin 500)
    (by decide) (by decide)

/-- C2: calculateBalance is 0 on the empty list, is the sum of income
amounts minus the sum of expense amounts on any list of well-typed
transactions, and equals 800 on one income of 1000 and one expense of
200. -/
theorem calculateBalance_spec :
    calculateBalance [] = JSNum.fin 0
    ∧ (∀ ts : List Transaction,
        (∀ t ∈ ts, t.type = "income" ∨ t.type = "expense") →
        calculateBalance ts =
          jsSub (sumAmounts (incomeAmounts ts)) (sumAmounts (expenseAmounts ts)))
    ∧ calculateBalance
        [⟨1, "income", JSNum.fin 1000, "salary", "", "2026-01-01"⟩,
         ⟨2, "expense", JSNum.fin 200, "food", "", "2026-01-02"⟩] = JSNum.fin 800 := by
  refine ⟨by norm_num [calculateBalance, jsSub, jsAdd, jsNeg], ?_,
    by norm_num +decide [calculateBalance, balStep, jsSub, jsAdd, jsNeg]⟩
  intro ts hty
  rw [calculateBalance_eq]
  have h : nonIncomeAmounts ts = expenseAmounts ts := by
    unfold nonIncomeAmounts expenseAmounts
    congr 1
    apply List.filter_congr
    intro t ht
    rcases hty t ht with h | h <;> simp [h]
  rw [h]

/-- C2 witness: the general income-minus-expense identity applied to the
concrete two-transaction list. -/
theorem calculateBalance_spec_witness :
    calculateBalance
      [⟨1, "income", JSNum.fin 1000, "salary", "", "2026-01-01"⟩,
       ⟨2, "expense", JSNum.fin 200, "food", "", "2026-01-02"⟩] =
      jsSub
        (sumAmounts (incomeAmounts
          [⟨1, "income", JSNum.fin 1000, "salary", "", "2026-01-01"⟩,
           ⟨2, "expense", JSNum.fin 200, "food", "", "2026-01-02"⟩]))
        (sumAmounts (expenseAmounts
          [⟨1, "income", JSNum.fin 1000, "salary", "", "2026-01-01"⟩,
           ⟨2, "expense", JSNum.fin 200, "food", "", "2026-01-02"⟩])) :=
  calculateBalance_spec.2.1 _ (by decide)

/-- C9: in calculateBalance every transaction whose type is not exactly
"income" is subtracted as if it were an expense — the balance is always the
sum of income-typed amounts minus the sum of all other amounts — and in
particular a transaction with the malformed type "Expense" is subtracted. -/
theorem calculateBalance_nonincome :
    (∀ ts : List Transaction,
      calculateBalance ts =
        jsSub (sumAmounts (incomeAmounts ts)) (sumAmounts (nonIncomeAmounts ts)))
    ∧ calculateBalance [⟨1, "Expense", JSNum.fin 50, "misc", "", "2026-01-01"⟩] =
        JSNum.fin (-50) :=
  ⟨calculateBalance_eq, by norm_num +decide [calculateBalance, balStep, jsSub, jsAdd, jsNeg]⟩

/-- C6 (amended): for finite stored amounts, when no goal key is a
canonical numeric (array-index) string, the alerts of `checkAlerts` follow
the insertion order of the goals mapping, restricted to the goals whose
spend strictly exceeds their value; and unconditionally every emitted alert
is one whose recorded spend strictly exceeds its recorded goal, so no alert
appears for a goal that is not exceeded.  (Without the key restriction the
order is the `for ... in` order: numeric keys first, ascending.) -/
theorem checkAlerts_order (ts : List Transaction) (goals : List (String × JSNum))
    (hts : ∀ t ∈ ts, t.amount.isFinite = true) :
    ((∀ p ∈ goals, isArrayIndexKey p.1 = false) →
      checkAlerts ts goals =
        (goals.filter fun p => jsGtB (claimSpend ts p.1) p.2).map
          fun p => ⟨p.1, claimSpend ts p.1, p.2⟩)
    ∧ (∀ a ∈ checkAlerts ts goals, jsGtB a.spent a.goal = true) := by
  constructor
  · intro hidx
    rw [checkAlerts_eq ts goals hts, jsEntriesForIn_eq_self hidx, filterMap_guard]
  · intro a ha
    rw [checkAlerts_eq ts goals hts] at ha
    rcases List.mem_filterMap.mp ha with ⟨p, _, hfp⟩
    split at hfp
    · rename_i hg
      have h2 := Option.some.inj hfp
      rw [← h2]
      exact hg
    · exact absurd hfp (by simp)

/-- C6 witness: with non-numeric keys set in the order food then rent, and
only rent exceeded, the single rent alert follows insertion order. -/
theorem checkAlerts_order_witness :
    checkAlerts [⟨1, "expense", JSNum.fin 40, "rent", "", "2026-01-01"⟩]
        [("food", JSNum.fin 100), ("rent", JSNum.fin 30)] =
      ([("food", JSNum.fin 100), ("rent", JSNum.fin 30)].filter fun p =>
          jsGtB (claimSpend [⟨1, "expense", JSNum.fin 40, "rent", "", "2026-01-01"⟩] p.1) p.2).map
        fun p =>
          ⟨p.1, claimSpend [⟨1, "expense", JSNum.fin 40, "rent", "", "2026-01-01"⟩] p.1, p.2⟩ :=
  (checkAlerts_order [⟨1, "expense", JSNum.fin 40, "rent", "", "2026-01-01"⟩]
      [("food", JSNum.fin 100), ("rent", JSNum.fin 30)] (by decide)).1 (by decide)

/-- C6 counterexample: goal keys that are numeric strings are enumerated in
ascending numeric order, not insertion order.  Setting goals under key "2"
then key "1", with both exceeded, emits the alert for "1" first, so the
alert sequence is not ordered by the insertion order of the goals
mapping. -/
theorem checkAlerts_numeric_key_order :
    checkAlerts
        [⟨1, "expense", JSNum.fin 30, "1", "", "2026-01-01"⟩,
         ⟨2, "expense", JSNum.fin 30, "2", "", "2026-01-01"⟩]
        [("2", JSNum.fin 10), ("1", JSNum.fin 20)] =
      [⟨"1", JSNum.fin 30, JSNum.fin 20⟩, ⟨"2", JSNum.fin 30, JSNum.fin 10⟩]
    ∧ checkAlerts
        [⟨1, "expense", JSNum.fin 30, "1", "", "2026-01-01"⟩,
         ⟨2, "expense", JSNum.fin 30, "2", "", "2026-01-01"⟩]
        [("2", JSNum.fin 10), ("1", JSNum.fin 20)] ≠
      [⟨"2", JSNum.fin 30, JSNum.fin 10⟩, ⟨"1", JSNum.fin 30, JSNum.fin 20⟩] := by
  have h : checkAlerts
      [⟨1, "expense", JSNum.fin 30, "1", "", "2026-01-01"⟩,
       ⟨2, "expense", JSNum.fin 30, "2", "", "2026-01-01"⟩]
      [("2", JSNum.fin 10), ("1", JSNum.fin 20)] =
      [⟨"1", JSNum.fin 30, JSNum.fin 20⟩, ⟨"2", JSNum.fin 30, JSNum.fin 10⟩] := by
    norm_num +decide [checkAlerts, spentByCategory, accumSpend, totalExpense, expStep,
      jsEntriesForIn, sortByKeyNum, insertByKeyNum, keyNum, isArrayIndexKey,
      objSet, objGet, jsOr0, jsAdd, jsGtB, jsLtB, natOfDigits,
      List.filterMap_cons, List.filterMap_nil]
  exact ⟨h, by rw [h]; decide⟩

/-- A false type guard in `add` means the lowercased type is one of the two
valid values. -/
theorem add_guard_type {ty : String}
    (h : (jsToLower ty != "income" && jsToLower ty != "expense") = false) :
    jsToLower ty = "income" ∨ jsToLower ty = "expense" := by
  rcases Bool.and_eq_false_iff.mp h with h' | h'
  · left
    simpa using h'
  · right
    simpa using h'

/-- One command preserves document well-formedness, provided every stored id
is below the clock value the command observes. -/
theorem step_wf (d : Document) (c : CmdCtx) (hwf : wfDoc d)
    (hid : ∀ t ∈ d.transactions, t.id < c.now) : wfDoc (step d c).1 := by
  obtain ⟨cmd, now, today⟩ := c
  cases cmd with
  | add ty s cat desc =>
    simp only [step]
    by_cases h1 : (jsToLower ty != "income" && jsToLower ty != "expense") = true
    · rw [if_pos h1]
      exact hwf
    · rw [if_neg h1]
      by_cases h2 : invalidAmount (parseFloat s) = true
      · rw [if_pos h2]
        exact hwf
      · rw [if_neg h2]
        have hty := add_guard_type (by simpa using h1)
        have hpos : jsGtB (parseFloat s) (JSNum.fin 0) = true :=
          jsGtB_zero_of_valid (by simpa using h2)
        constructor
        · intro t ht
          simp only [List.mem_append, List.mem_singleton] at ht
          rcases ht with ht | rfl
          · exact hwf.1 t ht
          · exact ⟨hpos, hty⟩
        · show ((d.transactions ++ [_]).map Transaction.id).Pairwise (· < ·)
          rw [List.map_append, List.pairwise_append]
          refine ⟨hwf.2, by simp, ?_⟩
          intro a ha b hb
          simp only [List.map_cons, List.map_nil, List.mem_singleton] at hb
          rcases List.mem_map.mp ha with ⟨t, ht, rfl⟩
          rw [hb]
          exact hid t ht
  | del idStr =>
    simp only [step]
    by_cases h : (d.transactions.filter fun t => toString t.id != idStr).length =
        d.transactions.length
    · rw [if_pos h]
      exact hwf
    · rw [if_neg h]
      exact ⟨fun t ht => hwf.1 t (List.mem_of_mem_filter ht),
        List.Pairwise.sublist ((List.filter_sublist _).map _) hwf.2⟩
  | setgoal cat s =>
    simp only [step]
    by_cases h : invalidAmount (parseFloat s) = true
    · rw [if_pos h]
      exact hwf
    · rw [if_neg h]
      exact hwf

/-- A transaction present after one command was present before, or is the
freshly created one carrying the observed clock value as its id. -/
theorem step_mem_id (d : Document) (c : CmdCtx) (t : Transaction)
    (ht : t ∈ (step d c).1.transactions) : t ∈ d.transactions ∨ t.id = c.now := by
  obtain ⟨cmd, now, today⟩ := c
  cases cmd with
  | add ty s cat desc =>
    simp only [step] at ht
    by_cases h1 : (jsToLower ty != "income" && jsToLower ty != "expense") = true
    · rw [if_pos h1] at ht
      exact Or.inl ht
    · rw [if_neg h1] at ht
      by_cases h2 : invalidAmount (parseFloat s) = true
      · rw [if_pos h2] at ht
        exact Or.inl ht
      · rw [if_neg h2] at ht
        simp only [List.mem_append, List.mem_singleton] at ht
        rcases ht with ht | rfl
        · exact Or.inl ht
        · exact Or.inr rfl
  | del idStr =>
    simp only [step] at ht
    by_cases h : (d.transactions.filter fun t => toString t.id != idStr).length =
        d.transactions.length
    · rw [if_pos h] at ht
      exact Or.inl ht
    · rw [if_neg h] at ht
      exact Or.inl (List.mem_of_mem_filter ht)
  | setgoal cat s =>
    simp only [step] at ht
    by_cases h : invalidAmount (parseFloat s) = true
    · rw [if_pos h] at ht
      exact Or.inl ht
    · rw [if_neg h] at ht
      exact Or.inl ht

/-- Running a command sequence with strictly increasing clock readings from
a well-formed document whose ids are below all upcoming clock readings
yields a well-formed document. -/
theorem run_wf (cs : List CmdCtx) (d : Document) (hwf : wfDoc d)
    (hlt : ∀ t ∈ d.transactions, ∀ c ∈ cs, t.id < c.now)
    (hmono : (cs.map CmdCtx.now).Pairwise (· < ·)) :
    wfDoc (run d cs) := by
  induction cs generalizing d with
  | nil => exact hwf
  | cons c rest ih =>
    have hmono' : List.Pairwise (· < ·) (c.now :: rest.map CmdCtx.now) := by
      simpa using hmono
    have hpc := List.pairwise_cons.mp hmono'
    show wfDoc (run (step d c).1 rest)
    apply ih
    · exact step_wf d c hwf (fun t ht => hlt t ht c (List.mem_cons_self _ _))
    · intro t ht c' hc'
      rcases step_mem_id d c t ht with h | h
      · exact hlt t h c' (List.mem_cons_of_mem _ hc')
      · rw [h]
        exact hpc.1 c'.now (List.mem_map_of_mem _ hc')
    · exact hpc.2

/-- C3: after any sequence of add, delete and setgoal commands starting from
the empty document, with strictly increasing `Date.now()` readings, every
stored transaction has a positive amount and a type equal to "income" or
"expense", and the stored ids are strictly increasing along the list (in
particular each id identifies a unique transaction). -/
theorem run_preserves_invariants (cs : List CmdCtx)
    (hmono : (cs.map CmdCtx.now).Pairwise (· < ·)) :
    wfDoc (run emptyDoc cs) :=
  run_wf cs emptyDoc ⟨by simp [emptyDoc], by simp [emptyDoc]⟩ (by simp [emptyDoc]) hmono

/-- C3 witness: a concrete script of two adds, a setgoal and a delete with
increasing clock readings leaves a well-formed document. -/
theorem run_preserves_invariants_witness :
    wfDoc (run emptyDoc
      [⟨Cmd.add "income" "1000" "salary" "", 101, "2026-01-01"⟩,
       ⟨Cmd.setgoal "food" "500", 102, "2026-01-01"⟩,
       ⟨Cmd.add "expense" "200" "food" "", 103, "2026-01-02"⟩,
       ⟨Cmd.del "101", 104, "2026-01-02"⟩]) :=
  run_preserves_invariants _ (by decide)

/-- C4 (amended): for every amount input whose parseFloat result is NaN
(non-numeric input) or is less than or equal to 0, and a valid type, the add
command prints the amount error, exits with failure status, and appends no
transaction — the document is returned unchanged.  (A parsed value of
positive Infinity passes the check `isNaN(amount) || amount <= 0` and is
accepted, so non-finiteness alone does not make add fail.) -/
theorem add_rejects_invalid_amount (d : Document) (now : ℕ) (day ty s cat desc : String)
    (hty : jsToLower ty = "income" ∨ jsToLower ty = "expense")
    (hs : (parseFloat s).isNaN = true ∨ jsLeB (parseFloat s) (JSNum.fin 0) = true) :
    step d ⟨Cmd.add ty s cat desc, now, day⟩ =
      (d, Outcome.exitFailure "Amount must be a positive number") := by
  have h1 : (jsToLower ty != "income" && jsToLower ty != "expense") = false := by
    rcases hty with h | h <;> simp [h]
  have h2 : invalidAmount (parseFloat s) = true := by
    rcases hs with h | h <;> simp [invalidAmount, h]
  simp [step, h1, h2]

/-- C4 witness: the non-numeric amount "abc" makes add exit with failure
and leave the empty document unchanged. -/
theorem add_rejects_invalid_amount_witness :
    step emptyDoc ⟨Cmd.add "expense" "abc" "misc" "", 1, "2026-01-01"⟩ =
      (emptyDoc, Outcome.exitFailure "Amount must be a positive number") :=
  add_rejects_invalid_amount emptyDoc 1 "2026-01-01" "expense" "abc" "misc" ""
    (Or.inr (by decide)) (Or.inl (by decide))

/-- C4 counterexample: the amount input "Infinity" parses to a value that is
not a positive finite decimal, yet add succeeds and appends a transaction
with amount Infinity, because `isNaN(Infinity)` is false and
`Infinity <= 0` is false. -/
theorem add_accepts_infinity :
    (step emptyDoc ⟨Cmd.add "expense" "Infinity" "misc" "", 1, "2026-01-01"⟩).2 =
      Outcome.ok
    ∧ ((step emptyDoc ⟨Cmd.add "expense" "Infinity" "misc" "", 1, "2026-01-01"⟩).1.transactions.map
        Transaction.amount) = [JSNum.inf] := by
  decide

/-- C5: deleting with an identifier string that differs from the
stringification of every stored transaction id reports not-found and
returns the document unchanged (nothing is persisted); the comparison is
string equality of `t.id.toString()` against the supplied identifier. -/
theorem delete_not_found (d : Document) (idStr : String) (now : ℕ) (day : String)
    (h : ∀ t ∈ d.transactions, toString t.id ≠ idStr) :
    step d ⟨Cmd.del idStr, now, day⟩ =
      (d, Outcome.notFound "No transaction found with that ID") := by
  simp only [step]
  have hf : d.transactions.filter (fun t => toString t.id != idStr) = d.transactions :=
    List.filter_eq_self.mpr (by intro t ht; simpa using h t ht)
  rw [hf, if_pos rfl]

/-- C5 witness: the identifier "07" does not delete the transaction with id
7, because "7" and "07" differ as strings even though they are numerically
equal. -/
theorem delete_not_found_witness :
    step ⟨[⟨7, "income", JSNum.fin 5, "salary", "", "2026-01-01"⟩], []⟩
        ⟨Cmd.del "07", 1, "2026-01-02"⟩ =
      (⟨[⟨7, "income", JSNum.fin 5, "salary", "", "2026-01-01"⟩], []⟩,
        Outcome.notFound "No transaction found with that ID") :=
  delete_not_found ⟨[⟨7, "income", JSNum.fin 5, "salary", "", "2026-01-01"⟩], []⟩
    "07" 1 "2026-01-02" (by decide)

/-- C7: two consecutive setgoal commands on the same key with valid (parsed
positive) amounts leave the goals object holding the second amount at that
key — the entry is overwritten, not merged — keep every stored goal amount
positive (given they were positive before), and leave every other key
unchanged. -/
theorem setgoal_overwrite (d : Document) (k sa sb : String) (n1 n2 : ℕ)
    (day1 day2 : String)
    (ha : invalidAmount (parseFloat sa) = false)
    (hb : invalidAmount (parseFloat sb) = false)
    (hg : ∀ p ∈ d.goals, jsGtB p.2 (JSNum.fin 0) = true) :
    objGet ((step (step d ⟨Cmd.setgoal k sa, n1, day1⟩).1
        ⟨Cmd.setgoal k sb, n2, day2⟩).1).goals k = some (parseFloat sb)
    ∧ (∀ p ∈ ((step (step d ⟨Cmd.setgoal k sa, n1, day1⟩).1
        ⟨Cmd.setgoal k sb, n2, day2⟩).1).goals, jsGtB p.2 (JSNum.fin 0) = true)
    ∧ (∀ k', k' ≠ k →
        objGet ((step (step d ⟨Cmd.setgoal k sa, n1, day1⟩).1
          ⟨Cmd.setgoal k sb, n2, day2⟩).1).goals k' = objGet d.goals k') := by
  have hstep : (step (step d ⟨Cmd.setgoal k sa, n1, day1⟩).1
      ⟨Cmd.setgoal k sb, n2, day2⟩).1 =
      { d with goals := objSet (objSet d.goals k (parseFloat sa)) k (parseFloat sb) } := by
    simp [step, ha, hb]
  rw [hstep]
  refine ⟨objGet_objSet_self _ _ _, ?_, ?_⟩
  · intro p hp
    rcases mem_objSet hp with h | h
    · rw [h]
      exact jsGtB_zero_of_valid hb
    · rcases mem_objSet h with h' | h'
      · rw [h']
        exact jsGtB_zero_of_valid ha
      · exact hg p h'
  · intro k' hk
    rw [objGet_objSet_ne _ _ hk, objGet_objSet_ne _ _ hk]

/-- C7 witness: setting the food goal to 100 then to 250 stores 250 at key
food, keeps the pre-existing positive rent goal positive and unchanged. -/
theorem setgoal_overwrite_witness :
    objGet ((step (step (⟨[], [("rent", JSNum.fin 3)]⟩ : Document)
        ⟨Cmd.setgoal "food" "100", 1, "2026-01-01"⟩).1
        ⟨Cmd.setgoal "food" "250", 2, "2026-01-02"⟩).1).goals "food" =
      some (parseFloat "250") := by
  have ha : invalidAmount (parseFloat "100") = false := by
    have h1 : natOfDigits ['1', '0', '0'] = 100 := by decide
    have h0 : natOfDigits [] = 0 := by decide
    norm_num +decide [parseFloat, parseUnsigned, parseExponent, splitSign, h1, h0,
      invalidAmount, JSNum.isNaN, jsLeB]
  have hb : invalidAmount (parseFloat "250") = false := by
    have h1 : natOfDigits ['2', '5', '0'] = 250 := by decide
    have h0 : natOfDigits [] = 0 := by decide
    norm_num +decide [parseFloat, parseUnsigned, parseExponent, splitSign, h1, h0,
      invalidAmount, JSNum.isNaN, jsLeB]
  exact (setgoal_overwrite ⟨[], [("rent", JSNum.fin 3)]⟩ "food" "100" "250" 1 2
    "2026-01-01" "2026-01-02" ha hb (by decide)).1

/-- C8: a setgoal command whose amount parses to NaN or to a value not
greater than 0 reports the amount error and returns without mutating the
document; its outcome is an error-and-return, which is distinct from the
exit-with-failure outcome that the add command signals on the same invalid
amount with a valid type. -/
theorem setgoal_invalid_amount (d : Document) (k s : String) (n : ℕ)
    (day ty cat desc : String)
    (hs : invalidAmount (parseFloat s) = true) :
    step d ⟨Cmd.setgoal k s, n, day⟩ =
      (d, Outcome.errorReturn "Amount must be a positive number")
    ∧ ((jsToLower ty = "income" ∨ jsToLower ty = "expense") →
        step d ⟨Cmd.add ty s cat desc, n, day⟩ =
          (d, Outcome.exitFailure "Amount must be a positive number"))
    ∧ (∀ m1 m2 : String, Outcome.errorReturn m1 ≠ Outcome.exitFailure m2) := by
  refine ⟨by simp [step, hs], ?_, fun m1 m2 h => Outcome.noConfusion h⟩
  intro hty
  have h1 : (jsToLower ty != "income" && jsToLower ty != "expense") = false := by
    rcases hty with h | h <;> simp [h]
  simp [step, h1, hs]

/-- C8 witness: setgoal with the non-numeric amount "abc" returns the error
outcome and leaves the document unchanged, while add with the same amount
exits with failure. -/
theorem setgoal_invalid_amount_witness :
    step emptyDoc ⟨Cmd.setgoal "food" "abc", 1, "2026-01-01"⟩ =
      (emptyDoc, Outcome.errorReturn "Amount must be a positive number")
    ∧ step emptyDoc ⟨Cmd.add "expense" "abc" "misc" "", 1, "2026-01-01"⟩ =
      (emptyDoc, Outcome.exitFailure "Amount must be a positive number") := by
  have h := setgoal_invalid_amount emptyDoc "food" "abc" 1 "2026-01-01" "expense"
    "misc" "" (by decide)
  exact ⟨h.1, h.2.1 (Or.inr (by decide))⟩

/-- C10: one delete command removes every transaction whose id stringifies
to the supplied identifier — if several transactions share that id, all of
them are removed — and keeps every transaction whose id stringifies
differently. -/
theorem delete_removes_all (d : Document) (idStr : String) (n : ℕ) (day : String) :
    (∀ t ∈ d.transactions, toString t.id = idStr →
      t ∉ (step d ⟨Cmd.del idStr, n, day⟩).1.transactions)
    ∧ (∀ t ∈ d.transactions, toString t.id ≠ idStr →
      t ∈ (step d ⟨Cmd.del idStr, n, day⟩).1.transactions) := by
  simp only [step]
  by_cases h : (d.transactions.filter fun t => toString t.id != idStr).length =
      d.transactions.length
  · rw [if_pos h]
    have hall := all_of_length_filter_eq _ _ h
    constructor
    · intro t ht hmatch
      have := hall t ht
      rw [hmatch] at this
      simp at this
    · intro t ht _
      exact ht
  · rw [if_neg h]
    constructor
    · intro t ht hmatch hmem
      have := (List.mem_filter.mp hmem).2
      rw [hmatch] at this
      simp at this
    · intro t ht hne
      exact List.mem_filter.mpr ⟨ht, by simpa using hne⟩

/-- C10 witness: with two stored transactions both carrying id 5, deleting
"5" removes both of them. -/
theorem delete_removes_all_witness :
    (⟨5, "expense", JSNum.fin 1, "a", "", "2026-01-01"⟩ : Transaction) ∉
      (step (⟨[⟨5, "expense", JSNum.fin 1, "a", "", "2026-01-01"⟩,
               ⟨5, "income", JSNum.fin 2, "b", "", "2026-01-01"⟩], []⟩ : Document)
        ⟨Cmd.del "5", 9, "2026-01-02"⟩).1.transactions
    ∧ (⟨5, "income", JSNum.fin 2, "b", "", "2026-01-01"⟩ : Transaction) ∉
      (step (⟨[⟨5, "expense", JSNum.fin 1, "a", "", "2026-01-01"⟩,
               ⟨5, "income", JSNum.fin 2, "b", "", "2026-01-01"⟩], []⟩ : Document)
        ⟨Cmd.del "5", 9, "2026-01-02"⟩).1.transactions :=
  ⟨(delete_removes_all ⟨[⟨5, "expense", JSNum.fin 1, "a", "", "2026-01-01"⟩,
        ⟨5, "income", JSNum.fin 2, "b", "", "2026-01-01"⟩], []⟩ "5" 9 "2026-01-02").1
      _ (by decide) (by decide),
   (delete_removes_all ⟨[⟨5, "expense", JSNum.fin 1, "a", "", "2026-01-01"⟩,
        ⟨5, "income", JSNum.fin 2, "b", "", "2026-01-01"⟩], []⟩ "5" 9 "2026-01-02").1
      _ (by decide) (by decide)⟩
